import Mathlib

/-!
Shallow embedding of the offline-first task synchronization engine
(TaskService, SyncService and the express task route) and proofs of the
specification claims about it.

Conventions of the embedding:
* timestamps (`Date` / ISO strings) are modelled as `Nat` (milliseconds);
* JavaScript `undefined` / optional fields are `Option`;
* the SQLite tables `tasks`, `sync_queue` and `dead_letter_queue` are lists
  of rows inside a `DB` state record; SQL `UPDATE ... WHERE` is a `map`,
  `DELETE ... WHERE` a `filter`, `INSERT` an append;
* JavaScript truthiness of strings (`x || d` is `d` when `x` is `undefined`
  or the empty string) is modelled explicitly by `orElseStr`;
* fresh values produced inside the functions (`uuidv4()`, `new Date()`)
  are passed as explicit parameters.
-/

namespace TaskSync

/-- Row of the `tasks` table / the `Task` interface. -/
structure Task where
  id : String
  title : String
  description : String
  completed : Bool
  created_at : Nat
  updated_at : Nat
  is_deleted : Bool
  sync_status : String
  server_id : Option String := none
  last_synced_at : Option Nat := none
deriving DecidableEq, Repr

/-- A `Partial<Task>` patch: every field optional, `none` meaning the key is
absent from the object. -/
structure TaskPatch where
  id : Option String := none
  title : Option String := none
  description : Option String := none
  completed : Option Bool := none
  created_at : Option Nat := none
  updated_at : Option Nat := none
  is_deleted : Option Bool := none
  sync_status : Option String := none
  server_id : Option String := none
  last_synced_at : Option Nat := none
deriving DecidableEq, Repr

/-- Row of the `sync_queue` table / the `SyncQueueItem` interface. -/
structure SyncQueueItem where
  id : String
  task_id : String
  operation : String
  data : Task
  created_at : Nat
  retry_count : Nat
  error_message : Option String := none
deriving DecidableEq, Repr

/-- Row of the `dead_letter_queue` table. -/
structure DeadLetterItem where
  id : String
  task_id : String
  operation : String
  data : Task
  created_at : Nat
  failed_at : Nat
  retry_count : Nat
  final_error_message : String
deriving DecidableEq, Repr

/-- The persistent state: the three tables. -/
structure DB where
  tasks : List Task
  sync_queue : List SyncQueueItem
  dead_letter_queue : List DeadLetterItem
deriving DecidableEq, Repr

/-- JavaScript `x || d` for an optional string: `undefined` and `""` are
falsy, any other string wins. -/
def orElseStr (x : Option String) (d : String) : String :=
  match x with
  | some s => if s = "" then d else s
  | none => d

/-- JavaScript object spread `{...t, ...p}` for a task and a patch of optional fields:
fields present in the patch overwrite those of the task. -/
def applyPatch (t : Task) (p : TaskPatch) : Task :=
  { id := p.id.getD t.id
    title := p.title.getD t.title
    description := p.description.getD t.description
    completed := p.completed.getD t.completed
    created_at := p.created_at.getD t.created_at
    updated_at := p.updated_at.getD t.updated_at
    is_deleted := p.is_deleted.getD t.is_deleted
    sync_status := p.sync_status.getD t.sync_status
    server_id := match p.server_id with
      | some s => some s
      | none => t.server_id
    last_synced_at := match p.last_synced_at with
      | some n => some n
      | none => t.last_synced_at }

/-! ## TaskService -/

/-- `TaskService.getTask`: `SELECT * FROM tasks WHERE id = ? AND
is_deleted = 0` (first matching row, if any). -/
def getTask (db : DB) (id : String) : Option Task :=
  db.tasks.find? (fun t => t.id == id && !t.is_deleted)

/-- `TaskService.addToSyncQueue`: `INSERT INTO sync_queue (id, task_id,
operation, data, created_at, retry_count) VALUES (?, ?, ?, ?, ?, 0)`.
The fresh uuid `queueId` and timestamp `qnow` are parameters. -/
def addToSyncQueue (taskId op : String) (data : Task) (queueId : String)
    (qnow : Nat) (db : DB) : DB :=
  { db with sync_queue := db.sync_queue ++
      [{ id := queueId, task_id := taskId, operation := op, data := data
         created_at := qnow, retry_count := 0, error_message := none }] }

/-- `TaskService.createTask`: builds the task object (with JavaScript
`||` defaults), inserts the row and enqueues a `create` intent. -/
def createTask (taskData : TaskPatch) (id : String) (now : Nat)
    (queueId : String) (qnow : Nat) (db : DB) : Task × DB :=
  let task : Task :=
    { id := id
      title := orElseStr taskData.title ""
      description := orElseStr taskData.description ""
      completed := taskData.completed.getD false
      created_at := now
      updated_at := now
      is_deleted := false
      sync_status := "pending"
      server_id := none
      last_synced_at := none }
  let db1 : DB := { db with tasks := db.tasks ++ [task] }
  let db2 := addToSyncQueue task.id "create" task queueId qnow db1
  (task, db2)

/-- `TaskService.updateTask`: absent when `getTask` misses; otherwise
builds `{...existing, ...updates, id, updated_at: now, sync_status:
pending}`, runs `UPDATE tasks SET title, description, completed,
updated_at, sync_status WHERE id = ? AND is_deleted = 0`, and enqueues an
`update` intent with the merged object. -/
def updateTask (id : String) (updates : TaskPatch) (now : Nat)
    (queueId : String) (qnow : Nat) (db : DB) : Option Task × DB :=
  match getTask db id with
  | none => (none, db)
  | some existingTask =>
    let updatedTask : Task :=
      { applyPatch existingTask updates with
        id := id, updated_at := now, sync_status := "pending" }
    let db1 : DB := { db with tasks := db.tasks.map (fun t =>
        if t.id = id ∧ t.is_deleted = false then
          { t with title := updatedTask.title
                   description := updatedTask.description
                   completed := updatedTask.completed
                   updated_at := now
                   sync_status := "pending" }
        else t) }
    let db2 := addToSyncQueue id "update" updatedTask queueId qnow db1
    (some updatedTask, db2)

/-- `TaskService.deleteTask`: false when `getTask` misses; otherwise
soft-deletes the row and enqueues a `delete` intent carrying the final
snapshot. -/
def deleteTask (id : String) (now : Nat) (queueId : String) (qnow : Nat)
    (db : DB) : Bool × DB :=
  match getTask db id with
  | none => (false, db)
  | some existingTask =>
    let db1 : DB := { db with tasks := db.tasks.map (fun t =>
        if t.id = id ∧ t.is_deleted = false then
          { t with is_deleted := true, updated_at := now
                   sync_status := "pending" }
        else t) }
    let deletedTask : Task :=
      { existingTask with is_deleted := true, updated_at := now
                          sync_status := "pending" }
    let db2 := addToSyncQueue id "delete" deletedTask queueId qnow db1
    (true, db2)

/-- Ordering of tasks by `updated_at` ascending (`ORDER BY updated_at ASC`). -/
def taskUpdLe (a b : Task) : Prop := a.updated_at ≤ b.updated_at

instance : DecidableRel taskUpdLe := fun a b => Nat.decLe a.updated_at b.updated_at

instance : IsTotal Task taskUpdLe := ⟨fun a b => Nat.le_total a.updated_at b.updated_at⟩

instance : IsTrans Task taskUpdLe := ⟨fun _ _ _ => Nat.le_trans⟩

/-- Ordering of tasks by `created_at` descending (`ORDER BY created_at DESC`). -/
def taskCreGe (a b : Task) : Prop := b.created_at ≤ a.created_at

instance : DecidableRel taskCreGe := fun a b => Nat.decLe b.created_at a.created_at

instance : IsTotal Task taskCreGe := ⟨fun a b => Nat.le_total b.created_at a.created_at⟩

instance : IsTrans Task taskCreGe := ⟨fun _ _ _ h h' => Nat.le_trans h' h⟩

/-- `TaskService.getAllTasks`: `SELECT * FROM tasks WHERE is_deleted = 0
ORDER BY created_at DESC`. -/
def getAllTasks (db : DB) : List Task :=
  (db.tasks.filter (fun t => !t.is_deleted)).insertionSort taskCreGe

/-- `TaskService.getTasksNeedingSync`: `SELECT * FROM tasks WHERE
sync_status IN (pending, error) ORDER BY updated_at ASC` (no
`is_deleted` filter). -/
def getTasksNeedingSync (db : DB) : List Task :=
  (db.tasks.filter (fun t =>
    t.sync_status == "pending" || t.sync_status == "error")).insertionSort taskUpdLe

/-! ## SyncService -/

/-- `MAX_RETRIES` constant of `SyncService`. -/
def MAX_RETRIES : Nat := 3

/-- Default `BATCH_SIZE` (env `SYNC_BATCH_SIZE` defaulting to the string 10). -/
def BATCH_SIZE : Nat := 10

/-- `SyncService.resolveConflict`: last-writer-wins on `updated_at`,
server wins ties. -/
def resolveConflict (localTask serverTask : Task) : Task :=
  if serverTask.updated_at < localTask.updated_at then localTask
  else if localTask.updated_at < serverTask.updated_at then serverTask
  else serverTask

/-- `SyncService.updateTaskSyncStatus`: `UPDATE tasks SET sync_status = ?
WHERE id = ?`. -/
def updateTaskSyncStatus (taskId status : String) (db : DB) : DB :=
  { db with tasks := db.tasks.map (fun t =>
      if t.id = taskId then { t with sync_status := status } else t) }

/-- The `serverData?: Partial<Task>` argument of `updateSyncStatus`; only
its `server_id` member is read. -/
structure ServerData where
  server_id : Option String := none
deriving DecidableEq, Repr

/-- `SyncService.updateSyncStatus`: sets `sync_status` and
`last_synced_at`, adds `server_id` to the `SET` clause only when
`serverData?.server_id` is truthy (present and non-empty), and when the
status is `synced` runs `DELETE FROM sync_queue WHERE task_id = ?`. -/
def updateSyncStatus (taskId status : String) (serverData : Option ServerData)
    (now : Nat) (db : DB) : DB :=
  let sid : Option String := serverData.bind (fun s => s.server_id)
  let hasSid : Bool := match sid with
    | some s => s != ""
    | none => false
  let db1 : DB := { db with tasks := db.tasks.map (fun t =>
      if t.id = taskId then
        { t with sync_status := status, last_synced_at := some now
                 server_id := if hasSid then sid else t.server_id }
      else t) }
  if status = "synced" then
    { db1 with sync_queue := db1.sync_queue.filter (fun q => q.task_id != taskId) }
  else db1

/-- `SyncService.moveToDeadLetterQueue`: `INSERT INTO dead_letter_queue`
copying the fields of the item, with `failed_at = now` and the final error
message. -/
def moveToDeadLetterQueue (item : SyncQueueItem) (errorMessage : String)
    (now : Nat) (db : DB) : DB :=
  { db with dead_letter_queue := db.dead_letter_queue ++
      [{ id := item.id, task_id := item.task_id, operation := item.operation
         data := item.data, created_at := item.created_at, failed_at := now
         retry_count := item.retry_count
         final_error_message := errorMessage }] }

/-- `SyncService.handleSyncError`: bump the retry counter and record the
error while `retry_count + 1 < MAX_RETRIES`; otherwise move the item to
the dead-letter queue, mark the task `failed` and delete the queue row. -/
def handleSyncError (item : SyncQueueItem) (errMsg : String) (now : Nat)
    (db : DB) : DB :=
  let newRetryCount := item.retry_count + 1
  if MAX_RETRIES ≤ newRetryCount then
    let db1 := moveToDeadLetterQueue item errMsg now db
    let db2 := updateTaskSyncStatus item.task_id "failed" db1
    { db2 with sync_queue := db2.sync_queue.filter (fun q => q.id != item.id) }
  else
    let db1 : DB := { db with sync_queue := db.sync_queue.map (fun q =>
        if q.id = item.id then
          { q with retry_count := newRetryCount, error_message := some errMsg }
        else q) }
    updateTaskSyncStatus item.task_id "error" db1

/-- Lexicographic order used by `getSyncQueueItems` (`ORDER BY task_id,
created_at ASC`). -/
def queueLex (a b : SyncQueueItem) : Prop :=
  a.task_id < b.task_id ∨ (a.task_id = b.task_id ∧ a.created_at ≤ b.created_at)

instance : DecidableRel queueLex := fun a b => by
  unfold queueLex
  infer_instance

/-- `SyncService.getSyncQueueItems`: `SELECT * FROM sync_queue ORDER BY
task_id, created_at ASC`. -/
def getSyncQueueItems (db : DB) : List SyncQueueItem :=
  db.sync_queue.insertionSort queueLex

/-- Ordering of queue items by `created_at` ascending: the comparator
`(a, b) => a.created_at.getTime() - b.created_at.getTime()`. -/
def itemLe (a b : SyncQueueItem) : Prop := a.created_at ≤ b.created_at

instance : DecidableRel itemLe := fun a b => Nat.decLe a.created_at b.created_at

instance : IsTotal SyncQueueItem itemLe := ⟨fun a b => Nat.le_total a.created_at b.created_at⟩

instance : IsTrans SyncQueueItem itemLe := ⟨fun _ _ _ => Nat.le_trans⟩

/-- Sorting of the items of one task by `created_at` (the `taskItems.sort`
call inside `groupItemsByTaskChronologically`). -/
def sortGroup (l : List SyncQueueItem) : List SyncQueueItem :=
  l.insertionSort itemLe

/-- One step of filling the `Map<string, SyncQueueItem[]>`: append the
item to the group of its task, creating the group at the end on first sight
(JavaScript `Map` preserves insertion order). -/
def addToGroups (groups : List (String × List SyncQueueItem))
    (item : SyncQueueItem) : List (String × List SyncQueueItem) :=
  if groups.any (fun g => g.1 == item.task_id) then
    groups.map (fun g =>
      if g.1 = item.task_id then (g.1, g.2 ++ [item]) else g)
  else groups ++ [(item.task_id, [item])]

/-- `SyncService.groupItemsByTaskChronologically`: partition by `task_id`
in first-appearance order, then sort every group by `created_at`. -/
def groupItemsByTaskChronologically (items : List SyncQueueItem) :
    List (String × List SyncQueueItem) :=
  (items.foldl addToGroups []).map (fun g => (g.1, sortGroup g.2))

/-- One step of `createBatches`: close the current batch once it holds
`B` items, then append the item to the (possibly fresh) current batch. -/
def batchStep (B : Nat) (acc : List (List SyncQueueItem) × List SyncQueueItem)
    (item : SyncQueueItem) : List (List SyncQueueItem) × List SyncQueueItem :=
  if B ≤ acc.2.length then (acc.1 ++ [acc.2], [item])
  else (acc.1, acc.2 ++ [item])

/-- `SyncService.createBatches`: walk the groups in iteration order and
pack their members into batches of size at most `B`, flushing the
trailing batch. -/
def createBatches (B : Nat) (itemsByTask : List (String × List SyncQueueItem)) :
    List (List SyncQueueItem) :=
  let acc := itemsByTask.foldl (fun acc g => g.2.foldl (batchStep B) acc) ([], [])
  if acc.2.length > 0 then acc.1 ++ [acc.2] else acc.1

/-- One element of `BatchSyncResponse.processed_items`. -/
structure ProcessedItem where
  client_id : String
  server_id : Option String := none
  status : String
  resolved_data : Option Task := none
  error : Option String := none
deriving DecidableEq, Repr

/-- The reply of the server to one batch. -/
structure BatchSyncResponse where
  processed_items : List ProcessedItem
deriving DecidableEq, Repr

/-- One element of `SyncResult.errors`. -/
structure SyncErrorRec where
  task_id : String
  operation : String
  error : String
  timestamp : Nat
deriving DecidableEq, Repr

/-- The aggregate result of one sync cycle. -/
structure SyncResult where
  success : Bool
  synced_items : Nat
  failed_items : Nat
  errors : List SyncErrorRec
deriving DecidableEq, Repr

/-- `SyncService.processBatch`: mark every task `in-progress`, post the
batch (`respond` stands for the HTTP transport and the server), and on a
transport failure set every task to `error` and rethrow. -/
def processBatch (respond : List SyncQueueItem → Except String BatchSyncResponse)
    (items : List SyncQueueItem) (db : DB) :
    Except String BatchSyncResponse × DB :=
  let db1 := items.foldl (fun d it => updateTaskSyncStatus it.task_id "in-progress" d) db
  match respond items with
  | .ok r => (.ok r, db1)
  | .error e =>
    (.error e, items.foldl (fun d it => updateTaskSyncStatus it.task_id "error" d) db1)

/-- The `else` branch of the response loop in `SyncService.sync`: run the
failure handler with `processedItem.error` with the fallback message and
record the failure in the result. -/
def recordItemError (originalItem : SyncQueueItem) (now : Nat)
    (acc : SyncResult × DB) (errOpt : Option String) : SyncResult × DB :=
  let msg := orElseStr errOpt "Unknown sync error"
  let db' := handleSyncError originalItem msg now acc.2
  ({ acc.1 with failed_items := acc.1.failed_items + 1
                errors := acc.1.errors ++
                  [{ task_id := originalItem.task_id
                     operation := originalItem.operation
                     error := msg, timestamp := now }] }, db')

/-- Body of the `for (const processedItem of batchResponse.processed_items)`
loop in `SyncService.sync`. -/
def processResponseItem (batch : List SyncQueueItem) (now : Nat)
    (acc : SyncResult × DB) (pi : ProcessedItem) : SyncResult × DB :=
  match batch.find? (fun it => it.id == pi.client_id) with
  | none => acc
  | some originalItem =>
    if pi.status = "success" then
      let db' := updateSyncStatus originalItem.task_id "synced"
        (some { server_id := pi.server_id }) now acc.2
      ({ acc.1 with synced_items := acc.1.synced_items + 1 }, db')
    else if pi.status = "conflict" then
      match pi.resolved_data with
      | some serverTask =>
        let resolvedTask := resolveConflict originalItem.data serverTask
        let db' := updateSyncStatus originalItem.task_id "synced"
          (some { server_id := resolvedTask.server_id }) now acc.2
        ({ acc.1 with synced_items := acc.1.synced_items + 1 }, db')
      | none => recordItemError originalItem now acc pi.error
    else recordItemError originalItem now acc pi.error

/-- Body of the `for (const batch of batches)` loop in `SyncService.sync`:
process the response item by item, or on a transport failure run every
batch member through the failure handler. -/
def processOneBatch (respond : List SyncQueueItem → Except String BatchSyncResponse)
    (now : Nat) (acc : SyncResult × DB) (batch : List SyncQueueItem) :
    SyncResult × DB :=
  match processBatch respond batch acc.2 with
  | (.ok batchResponse, db1) =>
    batchResponse.processed_items.foldl (processResponseItem batch now) (acc.1, db1)
  | (.error e, db1) =>
    batch.foldl (fun ac item =>
      let d' := handleSyncError item e now ac.2
      ({ ac.1 with failed_items := ac.1.failed_items + 1
                   errors := ac.1.errors ++
                     [{ task_id := item.task_id, operation := item.operation
                        error := e, timestamp := now }] }, d')) (acc.1, db1)

/-- `SyncService.sync`: probe connectivity, drain the queue, group, batch,
process every batch, and summarize (`success` iff no errors). The
connectivity probe outcome and the transport are parameters. -/
def sync (connected : Bool)
    (respond : List SyncQueueItem → Except String BatchSyncResponse)
    (B : Nat) (now : Nat) (db : DB) : SyncResult × DB :=
  let result0 : SyncResult :=
    { success := true, synced_items := 0, failed_items := 0, errors := [] }
  if !connected then
    ({ result0 with success := false
                    errors := [{ task_id := "connection"
                                 operation := "connectivity_check"
                                 error := "Server is not reachable"
                                 timestamp := now }] }, db)
  else
    let queueItems := getSyncQueueItems db
    if queueItems.isEmpty then (result0, db)
    else
      let itemsByTask := groupItemsByTaskChronologically queueItems
      let batches := createBatches B itemsByTask
      let acc := batches.foldl (processOneBatch respond now) (result0, db)
      ({ acc.1 with success := acc.1.errors.isEmpty }, acc.2)

/-! ## Express route: POST /api/tasks -/

/-- JavaScript `String.prototype.trim`: strip leading and trailing
whitespace (modelled on the character list so that it computes by
kernel reduction). -/
def jsTrim (s : String) : String :=
  ⟨((s.data.dropWhile Char.isWhitespace).reverse.dropWhile Char.isWhitespace).reverse⟩

/-- The `POST /` handler of the task router: reject a missing, empty or
whitespace-only title with a 400 (`none` here); otherwise trim the fields
and call `createTask`. -/
def createTaskRoute (title description : Option String) (completed : Option Bool)
    (id : String) (now : Nat) (queueId : String) (qnow : Nat) (db : DB) :
    Option (Task × DB) :=
  match title with
  | none => none
  | some t =>
    if jsTrim t = "" then none
    else
      let descr : Option String := match description with
        | none => none
        | some d => if jsTrim d = "" then none else some (jsTrim d)
      some (createTask
        { title := some (jsTrim t), description := descr
          completed := some (completed.getD false) }
        id now queueId qnow db)

/-! ## Reachable states -/

/-- Any one state-changing call of the two services, with all fresh
values (uuids, clocks, connectivity, server behaviour) as data. -/
inductive SyncOp where
  | opCreate (taskData : TaskPatch) (id : String) (now : Nat) (qid : String) (qnow : Nat)
  | opUpdate (id : String) (patch : TaskPatch) (now : Nat) (qid : String) (qnow : Nat)
  | opDelete (id : String) (now : Nat) (qid : String) (qnow : Nat)
  | opEnqueue (taskId op : String) (data : Task) (qid : String) (qnow : Nat)
  | opSyncStatus (taskId status : String) (serverData : Option ServerData) (now : Nat)
  | opTaskStatus (taskId status : String)
  | opSyncError (item : SyncQueueItem) (msg : String) (now : Nat)
  | opCycle (connected : Bool)
      (respond : List SyncQueueItem → Except String BatchSyncResponse)
      (B : Nat) (now : Nat)

/-- Effect of one operation on the database. -/
def applySyncOp (db : DB) (op : SyncOp) : DB :=
  match op with
  | .opCreate taskData id now qid qnow => (createTask taskData id now qid qnow db).2
  | .opUpdate id patch now qid qnow => (updateTask id patch now qid qnow db).2
  | .opDelete id now qid qnow => (deleteTask id now qid qnow db).2
  | .opEnqueue taskId op data qid qnow => addToSyncQueue taskId op data qid qnow db
  | .opSyncStatus taskId status serverData now =>
    updateSyncStatus taskId status serverData now db
  | .opTaskStatus taskId status => updateTaskSyncStatus taskId status db
  | .opSyncError item msg now => handleSyncError item msg now db
  | .opCycle connected respond B now => (sync connected respond B now db).2

/-- The state reached from the empty database by a sequence of calls. -/
def runOps (ops : List SyncOp) : DB :=
  ops.foldl applySyncOp { tasks := [], sync_queue := [], dead_letter_queue := [] }

/-- The retry-bound invariant: every queue item has strictly fewer than
`MAX_RETRIES` recorded retries. -/
def QueueInv (db : DB) : Prop :=
  ∀ q ∈ db.sync_queue, q.retry_count < MAX_RETRIES

/-! ## Sample data for witnesses -/

/-- A live pending task used as concrete input by several witnesses. -/
def taskA : Task :=
  { id := "t1", title := "a", description := "", completed := false
    created_at := 0, updated_at := 5, is_deleted := false
    sync_status := "pending" }

/-- A database holding just `taskA`. -/
def dbA : DB := { tasks := [taskA], sync_queue := [], dead_letter_queue := [] }

/-- A queue item for `taskA` with no retries yet. -/
def itemA : SyncQueueItem :=
  { id := "q1", task_id := "t1", operation := "create", data := taskA
    created_at := 1, retry_count := 0 }

/-- A database holding `taskA` and its queue item. -/
def dbQ : DB := { tasks := [taskA], sync_queue := [itemA], dead_letter_queue := [] }

/-- A soft-deleted pending task. -/
def taskD : Task :=
  { id := "t2", title := "d", description := "", completed := false
    created_at := 0, updated_at := 6, is_deleted := true
    sync_status := "pending" }

/-- A database holding the live `taskA` and the soft-deleted `taskD`. -/
def dbD : DB := { tasks := [taskA, taskD], sync_queue := [], dead_letter_queue := [] }

/-- A queue item one increment away from the retry bound. -/
def itemR2 : SyncQueueItem := { itemA with retry_count := 2 }

/-- A database holding `taskA` and the almost-exhausted `itemR2`. -/
def dbR2 : DB := { tasks := [taskA], sync_queue := [itemR2], dead_letter_queue := [] }

/-- The fresh `SyncResult` a cycle starts from. -/
def result0 : SyncResult :=
  { success := true, synced_items := 0, failed_items := 0, errors := [] }

/-- A `success` response element that provides the empty string as
`server_id`. -/
def piEmptySid : ProcessedItem :=
  { client_id := "q1", server_id := some "", status := "success" }

/-- A `success` response element with a real `server_id`. -/
def piSrv : ProcessedItem :=
  { client_id := "q1", server_id := some "srv", status := "success" }

/-- A later queue item for the same task as `itemA`. -/
def itemB : SyncQueueItem :=
  { id := "q2", task_id := "t1", operation := "update", data := taskA
    created_at := 5, retry_count := 0 }

/-- A queue item for a second task. -/
def itemC : SyncQueueItem :=
  { id := "q3", task_id := "t2", operation := "create", data := taskD
    created_at := 2, retry_count := 0 }

/-- The task produced by the concrete creation in the C8 witness. -/
def taskW : Task :=
  { id := "t9", title := "hi", description := "", completed := false
    created_at := 3, updated_at := 3, is_deleted := false
    sync_status := "pending" }

/-- The database produced by the concrete creation in the C8 witness. -/
def dbW : DB :=
  { tasks := [taskA, taskW]
    sync_queue := [{ id := "q9", task_id := "t9", operation := "create"
                     data := taskW, created_at := 4, retry_count := 0 }]
    dead_letter_queue := [] }

/-! ## Claims -/

/-- C1: conflict resolution is a deterministic pure function of the two
`updated_at` values of the two snapshots: strictly newer local wins, strictly newer
server wins, and equal timestamps yield the server snapshot. -/
theorem claimC1_resolveConflict (localTask serverTask : Task) :
    (serverTask.updated_at < localTask.updated_at →
      resolveConflict localTask serverTask = localTask) ∧
    (localTask.updated_at < serverTask.updated_at →
      resolveConflict localTask serverTask = serverTask) ∧
    (localTask.updated_at = serverTask.updated_at →
      resolveConflict localTask serverTask = serverTask) := by
  unfold resolveConflict
  refine ⟨fun h => ?_, fun h => ?_, fun h => ?_⟩
  · rw [if_pos h]
  · rw [if_neg (by omega), if_pos h]
  · rw [if_neg (by omega), if_neg (by omega)]

/-- Witness for C1 at equal timestamps: the server snapshot is returned. -/
theorem claimC1_witness :
    taskA.updated_at = { taskA with title := "s" : Task }.updated_at ∧
    resolveConflict taskA { taskA with title := "s" } =
      { taskA with title := "s" } :=
  ⟨by decide, (claimC1_resolveConflict taskA { taskA with title := "s" }).2.2 (by decide)⟩

/-- C5: a cycle whose connectivity probe fails returns `success = false`,
zero synced and failed counts and exactly the synthetic connectivity
error, and leaves the database (all queue items and task rows) exactly as
it was. -/
theorem claimC5_offlineCycle
    (respond : List SyncQueueItem → Except String BatchSyncResponse)
    (B now : Nat) (db : DB) :
    sync false respond B now db =
      ({ success := false, synced_items := 0, failed_items := 0
         errors := [{ task_id := "connection", operation := "connectivity_check"
                      error := "Server is not reachable", timestamp := now }] },
       db) := rfl

/-- C8: every task returned by a successful `POST /api/tasks` has a
non-empty title (the route rejects missing, empty and whitespace-only
titles, and the trimmed title is stored). -/
theorem claimC8_titleNonEmpty
    (title description : Option String) (completed : Option Bool)
    (id : String) (now : Nat) (queueId : String) (qnow : Nat) (db : DB)
    (tk : Task) (db' : DB)
    (h : createTaskRoute title description completed id now queueId qnow db =
      some (tk, db')) :
    tk.title ≠ "" := by
  match title with
  | none => exact absurd h (by simp [createTaskRoute])
  | some t =>
    by_cases ht : jsTrim t = ""
    · exact absurd h (by simp [createTaskRoute, ht])
    · simp only [createTaskRoute] at h
      rw [if_neg ht] at h
      injection h with h2
      have htitle := congrArg (fun p => p.1.title) h2
      simp only [createTask, orElseStr] at htitle
      rw [if_neg ht] at htitle
      rw [← htitle]
      exact ht

/-- Witness for C8: a concrete successful creation with a padded title. -/
theorem claimC8_witness :
    createTaskRoute (some " hi ") none none "t9" 3 "q9" 4 dbA = some (taskW, dbW) ∧
    taskW.title ≠ "" :=
  ⟨by decide, claimC8_titleNonEmpty (some " hi ") none none "t9" 3 "q9" 4 dbA
    taskW dbW (by decide)⟩

/-- Pointwise relation between the old and the new `tasks` rows used to
state the frame conditions of an `UPDATE ... WHERE` (a `map`). -/
theorem forall2_map_self {α : Type _} (f : α → α) (R : α → α → Prop)
    (h : ∀ a, R a (f a)) : ∀ l : List α, List.Forall₂ R l (l.map f)
  | [] => List.Forall₂.nil
  | a :: l => List.Forall₂.cons (h a) (forall2_map_self f R h l)

/-- C6: `updateTask` returns absent and changes nothing when the task is
missing or soft-deleted; otherwise it overwrites the mutable fields from
the patch, refreshes `updated_at`, resets `sync_status` to `pending`,
appends exactly one `update` intent, and the returned task keeps the
original id even when the patch carries a different one. -/
theorem claimC6_updateTask :
    (∀ id updates now queueId qnow db, getTask db id = none →
      updateTask id updates now queueId qnow db = (none, db)) ∧
    (∀ id updates now queueId qnow db existingTask,
      getTask db id = some existingTask →
      ∃ u, (updateTask id updates now queueId qnow db).1 = some u ∧
        u.id = id ∧
        u.updated_at = now ∧
        u.sync_status = "pending" ∧
        u.title = updates.title.getD existingTask.title ∧
        u.description = updates.description.getD existingTask.description ∧
        u.completed = updates.completed.getD existingTask.completed ∧
        List.Forall₂ (fun t t' : Task =>
            (t.id = id ∧ t.is_deleted = false →
              t'.title = updates.title.getD existingTask.title ∧
              t'.description = updates.description.getD existingTask.description ∧
              t'.completed = updates.completed.getD existingTask.completed ∧
              t'.updated_at = now ∧
              t'.sync_status = "pending") ∧
            (¬(t.id = id ∧ t.is_deleted = false) → t' = t))
          db.tasks (updateTask id updates now queueId qnow db).2.tasks ∧
        (updateTask id updates now queueId qnow db).2.sync_queue =
          db.sync_queue ++
            [{ id := queueId, task_id := id, operation := "update", data := u
               created_at := qnow, retry_count := 0, error_message := none }] ∧
        (updateTask id updates now queueId qnow db).2.dead_letter_queue =
          db.dead_letter_queue) := by
  constructor
  · intro id updates now queueId qnow db h
    unfold updateTask
    rw [h]
  · intro id updates now queueId qnow db existingTask h
    unfold updateTask
    rw [h]
    refine ⟨_, rfl, rfl, rfl, rfl, rfl, rfl, rfl, ?_, rfl, rfl⟩
    refine forall2_map_self _ _ (fun t => ?_) db.tasks
    by_cases hc : t.id = id ∧ t.is_deleted = false
    · rw [if_pos hc]
      exact ⟨fun _ => ⟨rfl, rfl, rfl, rfl, rfl⟩, fun hn => absurd hc hn⟩
    · rw [if_neg hc]
      exact ⟨fun hcc => absurd hcc hc, fun _ => rfl⟩

/-- Witness for C6: updating `taskA` with a fresh title (and an attempt
to change the id) yields the patched task under the original id, writes
the stored row, and appends one `update` intent. -/
theorem claimC6_witness :
    getTask dbA "t1" = some taskA ∧
    (∃ u, (updateTask "t1" { id := some "evil", title := some "b" } 9 "q2" 9 dbA).1 =
        some u ∧
      u.id = "t1" ∧
      u.updated_at = 9 ∧
      u.sync_status = "pending" ∧
      u.title = (TaskPatch.title { id := some "evil", title := some "b" }).getD taskA.title ∧
      u.description =
        (TaskPatch.description { id := some "evil", title := some "b" }).getD taskA.description ∧
      u.completed =
        (TaskPatch.completed { id := some "evil", title := some "b" }).getD taskA.completed ∧
      List.Forall₂ (fun t t' : Task =>
          (t.id = "t1" ∧ t.is_deleted = false →
            t'.title = (TaskPatch.title { id := some "evil", title := some "b" }).getD taskA.title ∧
            t'.description =
              (TaskPatch.description { id := some "evil", title := some "b" }).getD taskA.description ∧
            t'.completed =
              (TaskPatch.completed { id := some "evil", title := some "b" }).getD taskA.completed ∧
            t'.updated_at = 9 ∧
            t'.sync_status = "pending") ∧
          (¬(t.id = "t1" ∧ t.is_deleted = false) → t' = t))
        dbA.tasks
        (updateTask "t1" { id := some "evil", title := some "b" } 9 "q2" 9 dbA).2.tasks ∧
      (updateTask "t1" { id := some "evil", title := some "b" } 9 "q2" 9 dbA).2.sync_queue =
        dbA.sync_queue ++
          [{ id := "q2", task_id := "t1", operation := "update", data := u
             created_at := 9, retry_count := 0, error_message := none }] ∧
      (updateTask "t1" { id := some "evil", title := some "b" } 9 "q2" 9 dbA).2.dead_letter_queue =
        dbA.dead_letter_queue) :=
  ⟨by decide, claimC6_updateTask.2 "t1" { id := some "evil", title := some "b" }
    9 "q2" 9 dbA taskA (by decide)⟩

/-- C10: on a live task, `updateTask` persists only `title`,
`description`, `completed`, `updated_at` and `sync_status`: every stored
row keeps its `id`, `created_at`, `is_deleted`, `server_id` and
`last_synced_at` even when the patch supplies them — while the returned
object does take those values from the patch, so it can differ from the
persisted row. -/
theorem claimC10_updateFrame
    (id : String) (updates : TaskPatch) (now : Nat) (queueId : String)
    (qnow : Nat) (db : DB) (existingTask : Task)
    (h : getTask db id = some existingTask) :
    List.Forall₂ (fun t t' : Task =>
        t'.id = t.id ∧ t'.created_at = t.created_at ∧
        t'.is_deleted = t.is_deleted ∧ t'.server_id = t.server_id ∧
        t'.last_synced_at = t.last_synced_at)
      db.tasks (updateTask id updates now queueId qnow db).2.tasks ∧
    ∃ u, (updateTask id updates now queueId qnow db).1 = some u ∧
      u.created_at = updates.created_at.getD existingTask.created_at ∧
      u.is_deleted = updates.is_deleted.getD existingTask.is_deleted ∧
      (∀ s, updates.server_id = some s → u.server_id = some s) ∧
      (∀ n, updates.last_synced_at = some n → u.last_synced_at = some n) := by
  unfold updateTask
  rw [h]
  constructor
  · refine forall2_map_self _ _ (fun t => ?_) db.tasks
    by_cases hc : t.id = id ∧ t.is_deleted = false
    · rw [if_pos hc]
      exact ⟨rfl, rfl, rfl, rfl, rfl⟩
    · rw [if_neg hc]
      exact ⟨rfl, rfl, rfl, rfl, rfl⟩
  · refine ⟨_, rfl, rfl, rfl, fun s hs => ?_, fun n hn => ?_⟩
    · show (applyPatch existingTask updates).server_id = some s
      simp [applyPatch, hs]
    · show (applyPatch existingTask updates).last_synced_at = some n
      simp [applyPatch, hn]

/-- Witness for C10: a patch that smuggles `server_id`, `created_at` and
`is_deleted` values leaves the fields of the stored row unchanged while the
returned object shows the patched values. -/
theorem claimC10_witness :
    getTask dbA "t1" = some taskA ∧
    (List.Forall₂ (fun t t' : Task =>
        t'.id = t.id ∧ t'.created_at = t.created_at ∧
        t'.is_deleted = t.is_deleted ∧ t'.server_id = t.server_id ∧
        t'.last_synced_at = t.last_synced_at)
      dbA.tasks
      (updateTask "t1"
        { created_at := some 99, is_deleted := some true, server_id := some "srv" }
        9 "q3" 9 dbA).2.tasks ∧
    ∃ u, (updateTask "t1"
        { created_at := some 99, is_deleted := some true, server_id := some "srv" }
        9 "q3" 9 dbA).1 = some u ∧
      u.created_at =
        (TaskPatch.created_at
          { created_at := some 99, is_deleted := some true, server_id := some "srv" }).getD
          taskA.created_at ∧
      u.is_deleted =
        (TaskPatch.is_deleted
          { created_at := some 99, is_deleted := some true, server_id := some "srv" }).getD
          taskA.is_deleted ∧
      (∀ s, TaskPatch.server_id
          { created_at := some 99, is_deleted := some true, server_id := some "srv" } =
          some s → u.server_id = some s) ∧
      (∀ n, TaskPatch.last_synced_at
          { created_at := some 99, is_deleted := some true, server_id := some "srv" } =
          some n → u.last_synced_at = some n)) :=
  ⟨by decide, claimC10_updateFrame "t1"
    { created_at := some 99, is_deleted := some true, server_id := some "srv" }
    9 "q3" 9 dbA taskA (by decide)⟩

/-- C7: soft-deleted rows are invisible to `getTask` and `getAllTasks`,
while `getTasksNeedingSync` returns every row, deleted or not, whose
`sync_status` is `pending` or `error`, ordered by `updated_at`
ascending. -/
theorem claimC7_visibility :
    (∀ db : DB, ∀ t ∈ db.tasks, t.is_deleted = true →
      (db.tasks.map Task.id).Nodup → getTask db t.id = none) ∧
    (∀ db : DB, ∀ t ∈ db.tasks, t.is_deleted = true → t ∉ getAllTasks db) ∧
    (∀ (db : DB) (t : Task), t ∈ getTasksNeedingSync db ↔
      t ∈ db.tasks ∧ (t.sync_status = "pending" ∨ t.sync_status = "error")) ∧
    (∀ db : DB, List.Sorted taskUpdLe (getTasksNeedingSync db)) := by
  refine ⟨?_, ?_, ?_, ?_⟩
  · intro db t ht hdel hnd
    unfold getTask
    rw [List.find?_eq_none]
    intro x hx
    simp only [Bool.and_eq_true, beq_iff_eq, Bool.not_eq_true']
    rintro ⟨hid, hxdel⟩
    have hxt : x = t := List.inj_on_of_nodup_map hnd hx ht hid
    rw [hxt] at hxdel
    rw [hdel] at hxdel
    exact absurd hxdel (by decide)
  · intro db t ht hdel
    unfold getAllTasks
    rw [List.mem_insertionSort, List.mem_filter]
    rintro ⟨_, hkeep⟩
    rw [hdel] at hkeep
    exact Bool.false_ne_true hkeep
  · intro db t
    unfold getTasksNeedingSync
    rw [List.mem_insertionSort, List.mem_filter]
    simp [String.ext_iff]
  · intro db
    exact List.sorted_insertionSort taskUpdLe _

/-- Witness for C7: the soft-deleted `taskD` is absent from `getTask` and
`getAllTasks` in a concrete database with distinct ids. -/
theorem claimC7_witness :
    (taskD ∈ dbD.tasks ∧ taskD.is_deleted = true ∧
      (dbD.tasks.map Task.id).Nodup ∧ getTask dbD taskD.id = none) ∧
    taskD ∉ getAllTasks dbD :=
  ⟨⟨by decide, by decide, by decide,
    claimC7_visibility.1 dbD taskD (by decide) (by decide) (by decide)⟩,
   claimC7_visibility.2.1 dbD taskD (by decide) (by decide)⟩

/-- Generic preservation of a predicate along a left fold. -/
theorem foldl_inv {σ α : Type _} (P : σ → Prop) (f : σ → α → σ)
    (h : ∀ s a, P s → P (f s a)) : ∀ (l : List α) (s : σ), P s → P (l.foldl f s)
  | [], _, hs => hs
  | a :: l, s, hs => foldl_inv P f h l (f s a) (h s a hs)

/-- Marking tasks in a fold leaves the queue untouched. -/
theorem sync_queue_foldl_status (status : String) :
    ∀ (items : List SyncQueueItem) (db : DB),
      (items.foldl (fun d it => updateTaskSyncStatus it.task_id status d) db).sync_queue =
        db.sync_queue
  | [], _ => rfl
  | it :: items, db => sync_queue_foldl_status status items (updateTaskSyncStatus it.task_id status db)

/-- `processBatch` only rewrites task statuses: the queue is unchanged. -/
theorem sync_queue_processBatch
    (respond : List SyncQueueItem → Except String BatchSyncResponse)
    (items : List SyncQueueItem) (db : DB) :
    (processBatch respond items db).2.sync_queue = db.sync_queue := by
  unfold processBatch
  cases respond items with
  | ok r => exact sync_queue_foldl_status "in-progress" items db
  | error e =>
    dsimp only
    rw [sync_queue_foldl_status "error", sync_queue_foldl_status "in-progress"]

/-- `updateTaskSyncStatus` preserves the retry bound. -/
theorem queueInv_updateTaskSyncStatus (taskId status : String) (db : DB)
    (h : QueueInv db) : QueueInv (updateTaskSyncStatus taskId status db) := h

/-- `addToSyncQueue` preserves the retry bound: fresh items start at 0. -/
theorem queueInv_addToSyncQueue (taskId op : String) (data : Task)
    (queueId : String) (qnow : Nat) (db : DB) (h : QueueInv db) :
    QueueInv (addToSyncQueue taskId op data queueId qnow db) := by
  intro q hq
  rcases List.mem_append.mp hq with hq | hq
  · exact h q hq
  · rcases List.mem_singleton.mp hq with rfl
    show (0 : Nat) < MAX_RETRIES
    decide

/-- `updateSyncStatus` preserves the retry bound: it only deletes items. -/
theorem queueInv_updateSyncStatus (taskId status : String)
    (serverData : Option ServerData) (now : Nat) (db : DB) (h : QueueInv db) :
    QueueInv (updateSyncStatus taskId status serverData now db) := by
  unfold updateSyncStatus
  split
  · intro q hq
    exact h q (List.mem_of_mem_filter hq)
  · exact h

/-- `handleSyncError` preserves the retry bound: it bumps a counter only
below the bound and otherwise deletes the item. -/
theorem queueInv_handleSyncError (item : SyncQueueItem) (errMsg : String)
    (now : Nat) (db : DB) (h : QueueInv db) :
    QueueInv (handleSyncError item errMsg now db) := by
  simp only [handleSyncError]
  split
  · intro q hq
    exact h q (List.mem_of_mem_filter hq)
  · rename_i hlt
    intro q hq
    rcases List.mem_map.mp hq with ⟨q', hq', rfl⟩
    by_cases hid : q'.id = item.id
    · rw [if_pos hid]
      show item.retry_count + 1 < MAX_RETRIES
      omega
    · rw [if_neg hid]
      exact h q' hq'

/-- `createTask` preserves the retry bound. -/
theorem queueInv_createTask (taskData : TaskPatch) (id : String) (now : Nat)
    (queueId : String) (qnow : Nat) (db : DB) (h : QueueInv db) :
    QueueInv (createTask taskData id now queueId qnow db).2 :=
  queueInv_addToSyncQueue _ _ _ _ _ _ h

/-- `updateTask` preserves the retry bound. -/
theorem queueInv_updateTask (id : String) (updates : TaskPatch) (now : Nat)
    (queueId : String) (qnow : Nat) (db : DB) (h : QueueInv db) :
    QueueInv (updateTask id updates now queueId qnow db).2 := by
  unfold updateTask
  cases getTask db id with
  | none => exact h
  | some existingTask => exact queueInv_addToSyncQueue _ _ _ _ _ _ h

/-- `deleteTask` preserves the retry bound. -/
theorem queueInv_deleteTask (id : String) (now : Nat) (queueId : String)
    (qnow : Nat) (db : DB) (h : QueueInv db) :
    QueueInv (deleteTask id now queueId qnow db).2 := by
  unfold deleteTask
  cases getTask db id with
  | none => exact h
  | some existingTask => exact queueInv_addToSyncQueue _ _ _ _ _ _ h

/-- `recordItemError` preserves the retry bound. -/
theorem queueInv_recordItemError (originalItem : SyncQueueItem) (now : Nat)
    (acc : SyncResult × DB) (errOpt : Option String) (h : QueueInv acc.2) :
    QueueInv (recordItemError originalItem now acc errOpt).2 :=
  queueInv_handleSyncError _ _ _ _ h

/-- `processResponseItem` preserves the retry bound. -/
theorem queueInv_processResponseItem (batch : List SyncQueueItem) (now : Nat)
    (acc : SyncResult × DB) (pi : ProcessedItem) (h : QueueInv acc.2) :
    QueueInv (processResponseItem batch now acc pi).2 := by
  unfold processResponseItem
  split
  · exact h
  · split
    · exact queueInv_updateSyncStatus _ _ _ _ _ h
    · split
      · split
        · exact queueInv_updateSyncStatus _ _ _ _ _ h
        · exact queueInv_recordItemError _ _ _ _ h
      · exact queueInv_recordItemError _ _ _ _ h

/-- `processOneBatch` preserves the retry bound. -/
theorem queueInv_processOneBatch
    (respond : List SyncQueueItem → Except String BatchSyncResponse)
    (now : Nat) (acc : SyncResult × DB) (batch : List SyncQueueItem)
    (h : QueueInv acc.2) : QueueInv (processOneBatch respond now acc batch).2 := by
  unfold processOneBatch
  split
  · rename_i batchResponse db1 heq
    have hq : db1.sync_queue = acc.2.sync_queue := by
      have := sync_queue_processBatch respond batch acc.2
      rw [heq] at this
      exact this
    have hdb1 : QueueInv db1 := by
      intro q hqmem
      rw [hq] at hqmem
      exact h q hqmem
    exact foldl_inv (fun s : SyncResult × DB => QueueInv s.2) _
      (fun s a hs => queueInv_processResponseItem batch now s a hs)
      batchResponse.processed_items (acc.1, db1) hdb1
  · rename_i e db1 heq
    have hq : db1.sync_queue = acc.2.sync_queue := by
      have := sync_queue_processBatch respond batch acc.2
      rw [heq] at this
      exact this
    have hdb1 : QueueInv db1 := by
      intro q hqmem
      rw [hq] at hqmem
      exact h q hqmem
    exact foldl_inv (fun s : SyncResult × DB => QueueInv s.2) _
      (fun (s : SyncResult × DB) (a : SyncQueueItem) hs =>
        queueInv_handleSyncError a e now s.2 hs)
      batch (acc.1, db1) hdb1

/-- A whole sync cycle preserves the retry bound. -/
theorem queueInv_sync (connected : Bool)
    (respond : List SyncQueueItem → Except String BatchSyncResponse)
    (B now : Nat) (db : DB) (h : QueueInv db) :
    QueueInv (sync connected respond B now db).2 := by
  simp only [sync]
  split
  · exact h
  · split
    · exact h
    · exact foldl_inv (fun s : SyncResult × DB => QueueInv s.2) _
        (fun s a hs => queueInv_processOneBatch respond now s a hs) _ _ h

/-- Every service call preserves the retry bound. -/
theorem queueInv_applySyncOp (db : DB) (op : SyncOp) (h : QueueInv db) :
    QueueInv (applySyncOp db op) := by
  cases op with
  | opCreate taskData id now qid qnow => exact queueInv_createTask _ _ _ _ _ _ h
  | opUpdate id patch now qid qnow => exact queueInv_updateTask _ _ _ _ _ _ h
  | opDelete id now qid qnow => exact queueInv_deleteTask _ _ _ _ _ h
  | opEnqueue taskId op data qid qnow => exact queueInv_addToSyncQueue _ _ _ _ _ _ h
  | opSyncStatus taskId status serverData now => exact queueInv_updateSyncStatus _ _ _ _ _ h
  | opTaskStatus taskId status => exact queueInv_updateTaskSyncStatus _ _ _ h
  | opSyncError item msg now => exact queueInv_handleSyncError _ _ _ _ h
  | opCycle connected respond B now => exact queueInv_sync _ _ _ _ _ h

/-- C2: below the bound the failure handler bumps the
`retry_count`, stores the error message and marks the task `error`; at
the bound it inserts the dead-letter record while the queue still holds
the item, then removes the item and marks the task `failed`; and in every
state reachable by the services no queue item has
`retry_count ≥ MAX_RETRIES`. -/
theorem claimC2_retryHandling :
    (∀ (item : SyncQueueItem) (e : String) (now : Nat) (db : DB),
      item.retry_count + 1 < MAX_RETRIES →
      (handleSyncError item e now db).sync_queue =
        db.sync_queue.map (fun q =>
          if q.id = item.id then
            { q with retry_count := item.retry_count + 1, error_message := some e }
          else q) ∧
      (handleSyncError item e now db).tasks =
        db.tasks.map (fun t =>
          if t.id = item.task_id then { t with sync_status := "error" } else t) ∧
      (handleSyncError item e now db).dead_letter_queue = db.dead_letter_queue) ∧
    (∀ (item : SyncQueueItem) (e : String) (now : Nat) (db : DB),
      MAX_RETRIES ≤ item.retry_count + 1 →
      (moveToDeadLetterQueue item e now db).sync_queue = db.sync_queue ∧
      (handleSyncError item e now db).dead_letter_queue =
        db.dead_letter_queue ++
          [{ id := item.id, task_id := item.task_id, operation := item.operation
             data := item.data, created_at := item.created_at, failed_at := now
             retry_count := item.retry_count, final_error_message := e }] ∧
      (handleSyncError item e now db).sync_queue =
        db.sync_queue.filter (fun q => q.id != item.id) ∧
      (handleSyncError item e now db).tasks =
        db.tasks.map (fun t =>
          if t.id = item.task_id then { t with sync_status := "failed" } else t)) ∧
    (∀ ops : List SyncOp, ∀ q ∈ (runOps ops).sync_queue,
      q.retry_count < MAX_RETRIES) := by
  refine ⟨?_, ?_, ?_⟩
  · intro item e now db hlt
    unfold handleSyncError
    rw [if_neg (by omega)]
    exact ⟨rfl, rfl, rfl⟩
  · intro item e now db hge
    unfold handleSyncError
    rw [if_pos hge]
    exact ⟨rfl, rfl, rfl, rfl⟩
  · intro ops
    exact foldl_inv QueueInv applySyncOp queueInv_applySyncOp ops _ (by intro q hq; cases hq)

/-- Witness for C2: bumping `itemA` (no prior retries) in `dbQ`, and the
retry bound in a state reached by one enqueue. -/
theorem claimC2_witness :
    (itemA.retry_count + 1 < MAX_RETRIES ∧
      (handleSyncError itemA "boom" 7 dbQ).sync_queue =
        dbQ.sync_queue.map (fun q =>
          if q.id = itemA.id then
            { q with retry_count := itemA.retry_count + 1, error_message := some "boom" }
          else q) ∧
      (handleSyncError itemA "boom" 7 dbQ).tasks =
        dbQ.tasks.map (fun t =>
          if t.id = itemA.task_id then { t with sync_status := "error" } else t) ∧
      (handleSyncError itemA "boom" 7 dbQ).dead_letter_queue =
        dbQ.dead_letter_queue) ∧
    (∀ q ∈ (runOps [SyncOp.opEnqueue "t1" "create" taskA "q1" 1]).sync_queue,
      q.retry_count < MAX_RETRIES) :=
  ⟨⟨by decide, claimC2_retryHandling.1 itemA "boom" 7 dbQ (by decide)⟩,
   claimC2_retryHandling.2.2 [SyncOp.opEnqueue "t1" "create" taskA "q1" 1]⟩

/-- C9: when retries are exhausted the dead-letter record copies the
`id`, `task_id`, `operation`, `data` and `created_at` of the item verbatim,
stores the triggering message as `final_error_message` and the move time
as `failed_at`, and its `retry_count` is the pre-increment value
`MAX_RETRIES - 1`, never `MAX_RETRIES`. -/
theorem claimC9_deadLetterRecord (item : SyncQueueItem) (e : String)
    (now : Nat) (db : DB)
    (hlt : item.retry_count < MAX_RETRIES)
    (hge : MAX_RETRIES ≤ item.retry_count + 1) :
    (handleSyncError item e now db).dead_letter_queue =
      db.dead_letter_queue ++
        [{ id := item.id, task_id := item.task_id, operation := item.operation
           data := item.data, created_at := item.created_at, failed_at := now
           retry_count := MAX_RETRIES - 1, final_error_message := e }] ∧
    item.retry_count = MAX_RETRIES - 1 := by
  have h2 : item.retry_count = MAX_RETRIES - 1 := by
    simp only [MAX_RETRIES] at hlt hge ⊢
    omega
  constructor
  · unfold handleSyncError
    rw [if_pos hge]
    show (moveToDeadLetterQueue item e now db).dead_letter_queue = _
    unfold moveToDeadLetterQueue
    rw [h2]
  · exact h2

/-- Witness for C9: dead-lettering `itemR2` (two prior retries) records
`retry_count = MAX_RETRIES - 1 = 2`. -/
theorem claimC9_witness :
    itemR2.retry_count < MAX_RETRIES ∧ MAX_RETRIES ≤ itemR2.retry_count + 1 ∧
    ((handleSyncError itemR2 "gone" 8 dbR2).dead_letter_queue =
      dbR2.dead_letter_queue ++
        [{ id := itemR2.id, task_id := itemR2.task_id, operation := itemR2.operation
           data := itemR2.data, created_at := itemR2.created_at, failed_at := 8
           retry_count := MAX_RETRIES - 1, final_error_message := "gone" }] ∧
      itemR2.retry_count = MAX_RETRIES - 1) :=
  ⟨by decide, by decide, claimC9_deadLetterRecord itemR2 "gone" 8 dbR2 (by decide) (by decide)⟩

/-- Counterexample for C3 as stated: the response element `piEmptySid`
reports `success` and provides `server_id = some ""`, yet the engine
leaves the `server_id` of the task unset (the code guards on JavaScript
truthiness, which rejects the empty string). -/
theorem claimC3_counterexample :
    piEmptySid.status = "success" ∧
    piEmptySid.server_id = some "" ∧
    (processResponseItem [itemA] 7 (result0, dbQ) piEmptySid).2.tasks.map
      Task.server_id = [none] ∧
    ¬ (processResponseItem [itemA] 7 (result0, dbQ) piEmptySid).2.tasks.map
      Task.server_id = [some ""] := by decide

/-- Unfolding of `updateSyncStatus` at status `synced`: the row update
and the queue deletion in closed form. -/
theorem updateSyncStatus_synced (taskId : String) (sd : Option String)
    (now : Nat) (db : DB) :
    (updateSyncStatus taskId "synced" (some { server_id := sd }) now db).tasks =
      db.tasks.map (fun t =>
        if t.id = taskId then
          { t with sync_status := "synced", last_synced_at := some now
                   server_id := if (match sd with
                     | some s => s != ""
                     | none => false) then sd else t.server_id }
        else t) ∧
    (updateSyncStatus taskId "synced" (some { server_id := sd }) now db).sync_queue =
      db.sync_queue.filter (fun q => q.task_id != taskId) ∧
    (updateSyncStatus taskId "synced" (some { server_id := sd }) now db).dead_letter_queue =
      db.dead_letter_queue := by
  simp only [updateSyncStatus, ite_true]
  exact ⟨rfl, trivial, trivial⟩

/-- C3 (amended): a `success` outcome bumps the synced counter, marks
the matched task `synced` with `last_synced_at = now`, stores `server_id`
when the response provides a non-empty one (and keeps the old value when
the response carries none or the empty string), leaves other rows and the
dead-letter store alone, and removes every queue item of that task. -/
theorem claimC3_successOutcome (batch : List SyncQueueItem) (now : Nat)
    (result : SyncResult) (db : DB) (pi : ProcessedItem)
    (originalItem : SyncQueueItem)
    (hfind : batch.find? (fun it => it.id == pi.client_id) = some originalItem)
    (hst : pi.status = "success") :
    (processResponseItem batch now (result, db) pi).1 =
      { result with synced_items := result.synced_items + 1 } ∧
    List.Forall₂ (fun t t' : Task =>
        (t.id = originalItem.task_id →
          t'.sync_status = "synced" ∧ t'.last_synced_at = some now ∧
          (∀ s, pi.server_id = some s → s ≠ "" → t'.server_id = some s) ∧
          (pi.server_id = none ∨ pi.server_id = some "" →
            t'.server_id = t.server_id)) ∧
        (t.id ≠ originalItem.task_id → t' = t))
      db.tasks (processResponseItem batch now (result, db) pi).2.tasks ∧
    (processResponseItem batch now (result, db) pi).2.sync_queue =
      db.sync_queue.filter (fun q => q.task_id != originalItem.task_id) ∧
    (∀ q ∈ (processResponseItem batch now (result, db) pi).2.sync_queue,
      q.task_id ≠ originalItem.task_id) ∧
    (processResponseItem batch now (result, db) pi).2.dead_letter_queue =
      db.dead_letter_queue := by
  have hred : processResponseItem batch now (result, db) pi =
      ({ result with synced_items := result.synced_items + 1 },
       updateSyncStatus originalItem.task_id "synced"
         (some { server_id := pi.server_id }) now db) := by
    unfold processResponseItem
    rw [hfind]
    dsimp only
    rw [if_pos hst]
  rw [hred]
  obtain ⟨htasks, hqueue, hdlq⟩ :=
    updateSyncStatus_synced originalItem.task_id pi.server_id now db
  refine ⟨rfl, ?_, hqueue, ?_, hdlq⟩
  · rw [htasks]
    refine forall2_map_self _ _ (fun t => ?_) db.tasks
    constructor
    · intro hid
      rw [if_pos hid]
      refine ⟨rfl, rfl, fun s hs hne => ?_, fun hcase => ?_⟩
      · show (if (match pi.server_id with
            | some s => s != ""
            | none => false) = true then pi.server_id else t.server_id) = some s
        rw [hs]
        simp [hne]
      · show (if (match pi.server_id with
            | some s => s != ""
            | none => false) = true then pi.server_id else t.server_id) = t.server_id
        rcases hcase with hc | hc <;> rw [hc] <;> simp
    · intro hid
      rw [if_neg hid]
  · intro q hq
    rw [hqueue] at hq
    have := List.of_mem_filter hq
    simpa using this

/-- Witness for C3 (amended): syncing `itemA` successfully with
`server_id = "srv"` marks `taskA` synced, stores the id and empties the
queue. -/
theorem claimC3_witness :
    [itemA].find? (fun it => it.id == piSrv.client_id) = some itemA ∧
    piSrv.status = "success" ∧
    ((processResponseItem [itemA] 7 (result0, dbQ) piSrv).1 =
      { result0 with synced_items := result0.synced_items + 1 } ∧
    List.Forall₂ (fun t t' : Task =>
        (t.id = itemA.task_id →
          t'.sync_status = "synced" ∧ t'.last_synced_at = some 7 ∧
          (∀ s, piSrv.server_id = some s → s ≠ "" → t'.server_id = some s) ∧
          (piSrv.server_id = none ∨ piSrv.server_id = some "" →
            t'.server_id = t.server_id)) ∧
        (t.id ≠ itemA.task_id → t' = t))
      dbQ.tasks (processResponseItem [itemA] 7 (result0, dbQ) piSrv).2.tasks ∧
    (processResponseItem [itemA] 7 (result0, dbQ) piSrv).2.sync_queue =
      dbQ.sync_queue.filter (fun q => q.task_id != itemA.task_id) ∧
    (∀ q ∈ (processResponseItem [itemA] 7 (result0, dbQ) piSrv).2.sync_queue,
      q.task_id ≠ itemA.task_id) ∧
    (processResponseItem [itemA] 7 (result0, dbQ) piSrv).2.dead_letter_queue =
      dbQ.dead_letter_queue) :=
  ⟨by decide, by decide,
   claimC3_successOutcome [itemA] 7 result0 dbQ piSrv itemA (by decide) (by decide)⟩

/-- The nested fold of `createBatches` equals a single fold over the
concatenation of the members of all groups. -/
theorem foldl_batchStep_flatMap (B : Nat) :
    ∀ (groups : List (String × List SyncQueueItem))
      (acc : List (List SyncQueueItem) × List SyncQueueItem),
      groups.foldl (fun acc g => g.2.foldl (batchStep B) acc) acc =
        (groups.flatMap (fun g => g.2)).foldl (batchStep B) acc := by
  intro groups
  induction groups with
  | nil => intro acc; rfl
  | cons g gs ih =>
    intro acc
    rw [List.foldl_cons, List.flatMap_cons, List.foldl_append]
    exact ih _

/-- Flattening invariant of the packing fold: batches-so-far plus the
current batch always spell out the input processed so far. -/
theorem flatten_foldl_batchStep (B : Nat) :
    ∀ (l : List SyncQueueItem)
      (acc : List (List SyncQueueItem) × List SyncQueueItem),
      (l.foldl (batchStep B) acc).1.flatten ++ (l.foldl (batchStep B) acc).2 =
        acc.1.flatten ++ acc.2 ++ l := by
  intro l
  induction l with
  | nil => intro acc; simp
  | cons x xs ih =>
    intro acc
    rw [List.foldl_cons, ih (batchStep B acc x)]
    unfold batchStep
    split
    · simp
    · simp

/-- Flattening the produced batches recovers the concatenation of the
member lists of the groups. -/
theorem flatten_createBatches (B : Nat)
    (groups : List (String × List SyncQueueItem)) :
    (createBatches B groups).flatten = groups.flatMap (fun g => g.2) := by
  simp only [createBatches]
  rw [foldl_batchStep_flatMap]
  have h := flatten_foldl_batchStep B (groups.flatMap (fun g => g.2)) ([], [])
  simp only [List.flatten_nil, List.nil_append] at h
  split
  · rw [List.flatten_append]
    simpa using h
  · rename_i hneg
    have h2 : ((groups.flatMap (fun g => g.2)).foldl (batchStep B) ([], [])).2 = [] :=
      List.eq_nil_of_length_eq_zero (by omega)
    rw [h2, List.append_nil] at h
    exact h

/-- Every batch produced by the packing fold respects the size cap. -/
theorem length_le_foldl_batchStep (B : Nat) (hB : 0 < B) :
    ∀ (l : List SyncQueueItem)
      (acc : List (List SyncQueueItem) × List SyncQueueItem),
      (∀ b ∈ acc.1, b.length ≤ B) → acc.2.length ≤ B →
      (∀ b ∈ (l.foldl (batchStep B) acc).1, b.length ≤ B) ∧
        (l.foldl (batchStep B) acc).2.length ≤ B := by
  intro l
  induction l with
  | nil => intro acc h1 h2; exact ⟨h1, h2⟩
  | cons x xs ih =>
    intro acc h1 h2
    rw [List.foldl_cons]
    apply ih
    · unfold batchStep
      split
      · intro b hb
        rcases List.mem_append.mp hb with hb | hb
        · exact h1 b hb
        · rcases List.mem_singleton.mp hb with rfl
          exact h2
      · exact h1
    · unfold batchStep
      split
      · simpa using hB
      · rename_i hc
        have : acc.2.length < B := by omega
        show (acc.2 ++ [x]).length ≤ B
        rw [List.length_append]
        simpa using this

/-- Every batch returned by `createBatches` has size at most `B`. -/
theorem mem_createBatches_length (B : Nat) (hB : 0 < B)
    (groups : List (String × List SyncQueueItem)) :
    ∀ b ∈ createBatches B groups, b.length ≤ B := by
  intro b hb
  simp only [createBatches] at hb
  rw [foldl_batchStep_flatMap] at hb
  have h := length_le_foldl_batchStep B hB (groups.flatMap (fun g => g.2)) ([], [])
    (by intro b hb; cases hb) (by simp)
  split at hb
  · rcases List.mem_append.mp hb with hb | hb
    · exact h.1 b hb
    · rcases List.mem_singleton.mp hb with rfl
      exact h.2
  · exact h.1 b hb

/-- Keys are unchanged or extended by one fresh key when a queue item is
added to the groups. -/
theorem keys_addToGroups (gs : List (String × List SyncQueueItem))
    (item : SyncQueueItem) :
    (addToGroups gs item).map Prod.fst =
      (if gs.any (fun g => g.1 == item.task_id) then gs.map Prod.fst
       else gs.map Prod.fst ++ [item.task_id]) := by
  unfold addToGroups
  split
  · rw [List.map_map]
    apply List.map_congr_left
    intro g hg
    by_cases hc : g.1 = item.task_id
    · simp [hc]
    · simp [hc]
  · rw [List.map_append]
    rfl

/-- Key uniqueness is preserved when a queue item is added. -/
theorem nodup_keys_addToGroups (gs : List (String × List SyncQueueItem))
    (item : SyncQueueItem) (h : (gs.map Prod.fst).Nodup) :
    ((addToGroups gs item).map Prod.fst).Nodup := by
  rw [keys_addToGroups]
  split
  · exact h
  · rename_i hany
    have hnot : item.task_id ∉ gs.map Prod.fst := by
      intro hmem
      rcases List.mem_map.mp hmem with ⟨g, hg, hkey⟩
      exact hany (List.any_eq_true.mpr ⟨g, hg, by simp [hkey]⟩)
    simp [List.nodup_append, h, hnot]

/-- Every member of a group carries the key of its group, preserved when a
queue item is added. -/
theorem keyed_addToGroups (gs : List (String × List SyncQueueItem))
    (item : SyncQueueItem) (h : ∀ g ∈ gs, ∀ x ∈ g.2, x.task_id = g.1) :
    ∀ g ∈ addToGroups gs item, ∀ x ∈ g.2, x.task_id = g.1 := by
  unfold addToGroups
  split
  · intro g hg
    rcases List.mem_map.mp hg with ⟨g', hg', hEq⟩
    by_cases hc : g'.1 = item.task_id
    · rw [if_pos hc] at hEq
      rw [← hEq]
      intro x hx
      rcases List.mem_append.mp hx with hx | hx
      · exact h g' hg' x hx
      · rcases List.mem_singleton.mp hx with rfl
        exact hc.symm
    · rw [if_neg hc] at hEq
      rw [← hEq]
      exact h g' hg'
  · intro g hg
    rcases List.mem_append.mp hg with hg | hg
    · exact h g hg
    · rcases List.mem_singleton.mp hg with rfl
      intro x hx
      rcases List.mem_singleton.mp hx with rfl
      rfl

/-- Appending the new item to the (unique) matching group permutes to
appending it to the concatenation of all members. -/
theorem flatMap_map_addItem (item : SyncQueueItem) :
    ∀ gs : List (String × List SyncQueueItem),
      (gs.map Prod.fst).Nodup →
      gs.any (fun g => g.1 == item.task_id) = true →
      List.Perm
        ((gs.map (fun g =>
          if g.1 = item.task_id then (g.1, g.2 ++ [item]) else g)).flatMap
            (fun g => g.2))
        (gs.flatMap (fun g => g.2) ++ [item]) := by
  intro gs
  induction gs with
  | nil => intro _ hany; simp at hany
  | cons g rest ih =>
    intro hnd hany
    rw [List.map_cons, List.nodup_cons] at hnd
    by_cases hc : g.1 = item.task_id
    · have hrest_id : rest.map (fun g =>
          if g.1 = item.task_id then (g.1, g.2 ++ [item]) else g) = rest := by
        have hid : rest.map (fun g =>
            if g.1 = item.task_id then (g.1, g.2 ++ [item]) else g) =
            rest.map id := by
          apply List.map_congr_left
          intro g' hg'
          rw [if_neg]
          · rfl
          · intro hk
            apply hnd.1
            rw [hc, ← hk]
            exact List.mem_map.mpr ⟨g', hg', rfl⟩
        rw [hid, List.map_id]
      rw [List.map_cons, if_pos hc, hrest_id, List.flatMap_cons, List.flatMap_cons,
        List.append_assoc, List.append_assoc]
      exact List.Perm.append_left g.2 (List.perm_append_singleton item _).symm
    · have hany' : rest.any (fun g => g.1 == item.task_id) = true := by
        rcases List.any_eq_true.mp hany with ⟨g', hg', hk⟩
        rcases List.mem_cons.mp hg' with rfl | hg'
        · exact absurd (by simpa using hk) hc
        · exact List.any_eq_true.mpr ⟨g', hg', hk⟩
      rw [List.map_cons, if_neg hc, List.flatMap_cons, List.flatMap_cons,
        List.append_assoc]
      exact List.Perm.append_left g.2 (ih hnd.2 hany')

/-- Adding a queue item to the groups appends it (up to permutation) to
the concatenation of all members. -/
theorem flatMap_addToGroups (gs : List (String × List SyncQueueItem))
    (item : SyncQueueItem) (hnd : (gs.map Prod.fst).Nodup) :
    List.Perm ((addToGroups gs item).flatMap (fun g => g.2))
      (gs.flatMap (fun g => g.2) ++ [item]) := by
  unfold addToGroups
  split
  · rename_i hany
    exact flatMap_map_addItem item gs hnd hany
  · rw [List.flatMap_append, List.flatMap_cons]
    simp

/-- Folding the grouping step over the input permutes the concatenated
members to the initial members followed by the input. -/
theorem flatMap_foldl_addToGroups :
    ∀ (items : List SyncQueueItem) (gs : List (String × List SyncQueueItem)),
      (gs.map Prod.fst).Nodup →
      List.Perm ((items.foldl addToGroups gs).flatMap (fun g => g.2))
        (gs.flatMap (fun g => g.2) ++ items) := by
  intro items
  induction items with
  | nil => intro gs _; simp
  | cons x xs ih =>
    intro gs h
    rw [List.foldl_cons]
    refine (ih (addToGroups gs x) (nodup_keys_addToGroups gs x h)).trans ?_
    refine ((flatMap_addToGroups gs x h).append_right xs).trans ?_
    rw [List.append_assoc]
    exact List.Perm.refl _

/-- Sorting each group preserves the concatenated members up to
permutation. -/
theorem flatMap_map_sortGroup :
    ∀ gs : List (String × List SyncQueueItem),
      List.Perm
        ((gs.map (fun g => (g.1, sortGroup g.2))).flatMap (fun g => g.2))
        (gs.flatMap (fun g => g.2))
  | [] => List.Perm.refl _
  | g :: gs => by
    rw [List.map_cons, List.flatMap_cons, List.flatMap_cons]
    exact (List.perm_insertionSort itemLe g.2).append (flatMap_map_sortGroup gs)

/-- Structural facts about `groupItemsByTaskChronologically`: members
carry the key of their group, keys are unique, each group is sorted by
`created_at`, and the groups partition the input. -/
theorem groupItems_props (items : List SyncQueueItem) :
    (∀ g ∈ groupItemsByTaskChronologically items, ∀ x ∈ g.2, x.task_id = g.1) ∧
    ((groupItemsByTaskChronologically items).map Prod.fst).Nodup ∧
    (∀ g ∈ groupItemsByTaskChronologically items, List.Pairwise itemLe g.2) ∧
    List.Perm
      ((groupItemsByTaskChronologically items).flatMap (fun g => g.2)) items := by
  have hraw : (∀ g ∈ items.foldl addToGroups [], ∀ x ∈ g.2, x.task_id = g.1) ∧
      ((items.foldl addToGroups []).map Prod.fst).Nodup :=
    foldl_inv (fun gs => (∀ g ∈ gs, ∀ x ∈ g.2, x.task_id = g.1) ∧
        (gs.map Prod.fst).Nodup)
      addToGroups
      (fun gs item h =>
        ⟨keyed_addToGroups gs item h.1, nodup_keys_addToGroups gs item h.2⟩)
      items [] ⟨(by intro g hg; cases hg), List.nodup_nil⟩
  refine ⟨?_, ?_, ?_, ?_⟩
  · intro g hg x hx
    rcases List.mem_map.mp hg with ⟨g', hg', rfl⟩
    exact hraw.1 g' hg' x (by simpa [sortGroup] using hx)
  · have : (groupItemsByTaskChronologically items).map Prod.fst =
        (items.foldl addToGroups []).map Prod.fst := by
      unfold groupItemsByTaskChronologically
      rw [List.map_map]
      rfl
    rw [this]
    exact hraw.2
  · intro g hg
    rcases List.mem_map.mp hg with ⟨g', _, rfl⟩
    exact List.sorted_insertionSort itemLe g'.2
  · refine (flatMap_map_sortGroup (items.foldl addToGroups [])).trans ?_
    simpa using flatMap_foldl_addToGroups items [] List.nodup_nil

/-- Filtering the concatenated members by one task id yields the
(sorted) group, hence a `created_at`-ordered list. -/
theorem pairwise_filter_flatMap (tid : String) :
    ∀ gs : List (String × List SyncQueueItem),
      (∀ g ∈ gs, ∀ x ∈ g.2, x.task_id = g.1) →
      ((gs.map Prod.fst).Nodup) →
      (∀ g ∈ gs, List.Pairwise itemLe g.2) →
      List.Pairwise itemLe
        ((gs.flatMap (fun g => g.2)).filter (fun x => x.task_id == tid)) := by
  intro gs
  induction gs with
  | nil => intro _ _ _; simp
  | cons g rest ih =>
    intro hkey hnd hsort
    rw [List.map_cons, List.nodup_cons] at hnd
    rw [List.flatMap_cons, List.filter_append]
    by_cases hc : g.1 = tid
    · have hg2 : g.2.filter (fun x => x.task_id == tid) = g.2 := by
        rw [List.filter_eq_self]
        intro x hx
        have := hkey g (List.mem_cons_self g rest) x hx
        simp [this, hc]
      have hrest : (rest.flatMap (fun g => g.2)).filter
          (fun x => x.task_id == tid) = [] := by
        rw [List.filter_eq_nil_iff]
        intro x hx
        rcases List.mem_flatMap.mp hx with ⟨g', hg', hxg'⟩
        have hx' := hkey g' (List.mem_cons_of_mem g hg') x hxg'
        have hne : g'.1 ≠ tid := by
          intro hEq
          apply hnd.1
          rw [hc, ← hEq]
          exact List.mem_map.mpr ⟨g', hg', rfl⟩
        simp [hx', hne]
      rw [hg2, hrest, List.append_nil]
      exact hsort g (List.mem_cons_self g rest)
    · have hg2 : g.2.filter (fun x => x.task_id == tid) = [] := by
        rw [List.filter_eq_nil_iff]
        intro x hx
        have := hkey g (List.mem_cons_self g rest) x hx
        simp [this, hc]
      rw [hg2, List.nil_append]
      exact ih (fun g' hg' => hkey g' (List.mem_cons_of_mem g hg'))
        hnd.2 (fun g' hg' => hsort g' (List.mem_cons_of_mem g hg'))

/-- C4: with a positive cap every produced batch has size at most
`BATCH_SIZE`, the batches partition the drained items, and for each task
the items appear in `created_at` order across the flattened batch
sequence (hence within every single batch); items of different tasks are
not constrained. -/
theorem claimC4_batching (B : Nat) (hB : 0 < B) (items : List SyncQueueItem) :
    (∀ b ∈ createBatches B (groupItemsByTaskChronologically items),
      b.length ≤ B) ∧
    List.Perm (createBatches B (groupItemsByTaskChronologically items)).flatten
      items ∧
    (∀ tid : String, List.Pairwise itemLe
      ((createBatches B (groupItemsByTaskChronologically items)).flatten.filter
        (fun x => x.task_id == tid))) ∧
    (∀ tid : String,
      ∀ b ∈ createBatches B (groupItemsByTaskChronologically items),
        List.Pairwise itemLe (b.filter (fun x => x.task_id == tid))) := by
  obtain ⟨hkey, hnd, hsort, hperm⟩ := groupItems_props items
  have hflat := flatten_createBatches B (groupItemsByTaskChronologically items)
  refine ⟨mem_createBatches_length B hB _, ?_, ?_, ?_⟩
  · rw [hflat]
    exact hperm
  · intro tid
    rw [hflat]
    exact pairwise_filter_flatMap tid _ hkey hnd hsort
  · intro tid b hb
    have hsub : b.Sublist
        (createBatches B (groupItemsByTaskChronologically items)).flatten :=
      List.sublist_flatten_of_mem hb
    have hpw : List.Pairwise itemLe
        ((createBatches B (groupItemsByTaskChronologically items)).flatten.filter
          (fun x => x.task_id == tid)) := by
      rw [hflat]
      exact pairwise_filter_flatMap tid _ hkey hnd hsort
    exact hpw.sublist (hsub.filter _)

/-- Witness for C4: three intents over two tasks, cap 2. -/
theorem claimC4_witness :
    0 < 2 ∧
    ((∀ b ∈ createBatches 2 (groupItemsByTaskChronologically [itemB, itemC, itemA]),
      b.length ≤ 2) ∧
    List.Perm
      (createBatches 2 (groupItemsByTaskChronologically [itemB, itemC, itemA])).flatten
      [itemB, itemC, itemA] ∧
    (∀ tid : String, List.Pairwise itemLe
      ((createBatches 2
        (groupItemsByTaskChronologically [itemB, itemC, itemA])).flatten.filter
        (fun x => x.task_id == tid))) ∧
    (∀ tid : String,
      ∀ b ∈ createBatches 2 (groupItemsByTaskChronologically [itemB, itemC, itemA]),
        List.Pairwise itemLe (b.filter (fun x => x.task_id == tid)))) :=
  ⟨by decide, claimC4_batching 2 (by decide) [itemB, itemC, itemA]⟩

/-- Sanity example: the resolver keeps the server snapshot on equal
timestamps. -/
example :
    (resolveConflict
      { id := "a", title := "l", description := "", completed := false
        created_at := 0, updated_at := 5, is_deleted := false
        sync_status := "pending" }
      { id := "a", title := "s", description := "", completed := false
        created_at := 0, updated_at := 5, is_deleted := false
        sync_status := "synced" }).title = "s" := by decide

end TaskSync
